import Mathlib

/-!
Shallow embedding of the `PkUpdates` update-orchestration core of
plasma-pk-updates (header: `src/src/declarative/pkupdates.h`).

The repository ships only the class header under `src/`; the member-function
bodies (the `.cpp` implementation) are not present.  The data model below is
taken from the header (enums, member variables, signal/slot signatures,
default arguments, and the documented semantics such as
`isSystemUpToDate() == (count() == 0)`); the behaviour of each operation is
modelled from the specification, as marked on each definition.

The orchestrator is single-threaded and callback-driven, so every operation
is embedded as a pure function from the orchestrator state to a new state
paired with the list of externally visible effects (transactions started,
signals emitted) it produces, in order.
-/

/-- The `Activity` enum of `PkUpdates` (header line 61):
`{Idle, CheckingUpdates, GettingUpdates, InstallingUpdates}`. -/
inductive Activity
  | Idle
  | CheckingUpdates
  | GettingUpdates
  | InstallingUpdates
deriving DecidableEq

/-- The anonymous check-state enum of `PkUpdates` (header lines 270-274):
`{NoCheckDone, CheckFailed, CheckSucceeded}`. -/
inductive CheckState
  | NoCheckDone
  | CheckFailed
  | CheckSucceeded
deriving DecidableEq

/-- Severity classification of a discovery event's info code
(`PackageKit::Transaction::Info` as used by `onPackage`, header line 230;
classes per the spec's severity taxonomy). -/
inductive Info
  | Security
  | Important
  | Bugfix
  | Enhancement
  | Other
deriving DecidableEq

/-- Error kinds surfaced by the orchestrator per the spec's error taxonomy
(the ones the claims mention): out-of-order EULA resolution and a declined
EULA failing the install. -/
inductive PkError
  | NotFound
  | EulaDeclined
deriving DecidableEq

/-- The `EulaData` struct of `PkUpdates` (header lines 245-249). -/
structure EulaData where
  packageID : String
  vendor : String
  licenseAgreement : String
deriving DecidableEq

/-- One pending EULA: its id (the key of `m_requiredEulas`, header line 281)
together with its `EulaData`. -/
structure EulaRecord where
  eulaID : String
  eulaData : EulaData
deriving DecidableEq

/-- Externally visible effects of the orchestrator: transactions started
against the package-management service and signals emitted to the consumer
(header signals lines 137-176; transaction starts per the spec's §6
boundary). -/
inductive PkEvent
  | startRefresh
  | startDiscover
  | startInstall (packageIds : List String) (simulate untrusted : Bool)
  | startEulaAccept (eulaID : String)
  | eulaPrompt (eulaID packageID vendor licenseAgreement : String)
  | updatesInstalled
  | installFailed (err : PkError)
  | errorShown
  | done
deriving DecidableEq

/-- The mutable member state of `PkUpdates` (header lines 256-281).
Transaction handles (`QPointer<PackageKit::Transaction>`) are embedded as
occupancy booleans for their role slots; `m_updateList` is the
ordered-by-arrival id→summary catalog; `m_requiredEulas` is the pending-EULA
queue in arrival order; `m_savedSimulate`/`m_savedUntrusted` are the retained
install flags the spec requires alongside `m_packages` (spec §4.4/§9: the
original install arguments are retained for the lifetime of the EULA
queue). -/
structure PkState where
  m_activity : Activity
  m_lastCheckState : CheckState
  m_checkUpdatesWhenNetworkOnline : Bool
  m_updateList : List (String × String)
  m_importantList : List String
  m_securityList : List String
  m_requiredEulas : List EulaRecord
  m_packages : List String
  m_savedSimulate : Bool
  m_savedUntrusted : Bool
  m_cacheTransRunning : Bool
  m_updatesTransRunning : Bool
  m_installTransRunning : Bool
  m_eulaTransRunning : Bool
  m_isManualCheck : Bool
deriving DecidableEq

/-- `count()` (header lines 67-70): the total number of updates. -/
def count (s : PkState) : Nat := s.m_updateList.length

/-- `importantCount()` (header lines 72-75). -/
def importantCount (s : PkState) : Nat := s.m_importantList.length

/-- `securityCount()` (header lines 77-80). -/
def securityCount (s : PkState) : Nat := s.m_securityList.length

/-- `isSystemUpToDate()` (header lines 82-85): documented in the header
itself as `count() == 0`. -/
def isSystemUpToDate (s : PkState) : Bool := count s == 0

/-- `isActive()` (header lines 112-115): whether an update-related activity
is in progress; per the spec, true unless `Activity` is `Idle`. -/
def isActive (s : PkState) : Bool := s.m_activity != Activity.Idle

/-- Keys of the update catalog. -/
def catalogKeys (s : PkState) : List String := s.m_updateList.map Prod.fst

/-- Replace-not-merge insertion into the ordered-by-arrival catalog
(spec §3 PackageRecord: "replaced (not merged) if the same id recurs"). -/
def insertRecord (k v : String) : List (String × String) → List (String × String)
  | [] => [(k, v)]
  | (k', v') :: rest => if k' = k then (k, v) :: rest else (k', v') :: insertRecord k v rest

/-- Modelled from the spec (the body of the private slot `getUpdates`,
header line 226, is not in the repository sources): transition Activity to
`GettingUpdates`, clear the Update Catalog and its derived severity lists,
and start a Discover transaction (spec §4.2 step 4). -/
def getUpdates (s : PkState) : PkState × List PkEvent :=
  ({s with m_activity := Activity.GettingUpdates,
           m_updatesTransRunning := true,
           m_updateList := [], m_importantList := [], m_securityList := []},
   [PkEvent.startDiscover])

/-- Modelled from the spec (the body of `checkUpdates`, header line 186, is
not in the repository sources): spec §4.2 —
1. if active and not manual, no-op (coalescing);
2. if the network is offline, start nothing and set
   `m_checkUpdatesWhenNetworkOnline`;
3. if `force`, go to `CheckingUpdates` and start a Refresh transaction;
4. otherwise proceed directly to discovery. -/
def checkUpdates (networkOnline force manual : Bool) (s : PkState) : PkState × List PkEvent :=
  if isActive s && !manual then (s, [])
  else if !networkOnline then
    ({s with m_checkUpdatesWhenNetworkOnline := true}, [])
  else if force then
    ({s with m_activity := Activity.CheckingUpdates,
             m_cacheTransRunning := true, m_isManualCheck := manual},
     [PkEvent.startRefresh])
  else getUpdates {s with m_isManualCheck := manual}

/-- Modelled from the spec (the body of `doDelayedCheckUpdates`, header line
218, is not in the repository sources): clear the deferred flag and invoke
`checkUpdates(force=false, manual=false)` (spec §4.2 step 2). -/
def doDelayedCheckUpdates (s : PkState) : PkState × List PkEvent :=
  checkUpdates true false false {s with m_checkUpdatesWhenNetworkOnline := false}

/-- Modelled from the spec (the network-state-change reaction is not in the
repository sources): when the network transitions to online and a check was
deferred, auto-invoke the deferred check once (spec §4.2 step 2). -/
def onNetworkStateChanged (online : Bool) (s : PkState) : PkState × List PkEvent :=
  if online && s.m_checkUpdatesWhenNetworkOnline then doDelayedCheckUpdates s
  else (s, [])

/-- Modelled from the spec (the bodies of `onFinished`/`onRefreshErrorCode`
for the Refresh transaction, header lines 232-234, are not in the repository
sources): on Refresh success continue to discovery; on failure record
`CheckFailed`, surface the error, go Idle and stop — discovery is not
attempted (spec §4.2 step 3). -/
def onRefreshFinished (success : Bool) (s : PkState) : PkState × List PkEvent :=
  if success then getUpdates {s with m_cacheTransRunning := false}
  else
    ({s with m_cacheTransRunning := false,
             m_lastCheckState := CheckState.CheckFailed,
             m_activity := Activity.Idle},
     [PkEvent.errorShown, PkEvent.done])

/-- Modelled from the spec (the body of `onPackage`, header line 230, is not
in the repository sources): each streamed discovery event appends/overwrites
a catalog record and classifies severity at ingestion time (spec §4.2
step 5). -/
def onPackage (info : Info) (packageID summary : String) (s : PkState) : PkState :=
  {s with m_updateList := insertRecord packageID summary s.m_updateList,
          m_importantList :=
            if info = Info.Important then s.m_importantList ++ [packageID]
            else s.m_importantList,
          m_securityList :=
            if info = Info.Security then s.m_securityList ++ [packageID]
            else s.m_securityList}

/-- Fold a sequence of discovery events (info code, package id, summary)
into the state via `onPackage`. -/
def applyPackages (evs : List (Info × String × String)) (s : PkState) : PkState :=
  evs.foldl (fun st e => onPackage e.1 e.2.1 e.2.2 st) s

/-- Modelled from the spec (the Discover-terminal part of `onFinished`,
header line 232, is not in the repository sources): on success record
`CheckSucceeded`, go Idle and publish; on error record `CheckFailed`, surface
the error, go Idle (spec §4.2 step 6). -/
def onUpdatesFinished (success : Bool) (s : PkState) : PkState × List PkEvent :=
  if success then
    ({s with m_updatesTransRunning := false,
             m_lastCheckState := CheckState.CheckSucceeded,
             m_activity := Activity.Idle},
     [PkEvent.done])
  else
    ({s with m_updatesTransRunning := false,
             m_lastCheckState := CheckState.CheckFailed,
             m_activity := Activity.Idle},
     [PkEvent.errorShown, PkEvent.done])

/-- Modelled from the spec (the body of `installUpdates`, header line 193,
is not in the repository sources): reject an empty id list as a no-op,
otherwise go to `InstallingUpdates`, retain the install context
(`m_packages` plus the simulate/untrusted flags, spec §4.4/§9) and start an
Install transaction with the given flags (spec §4.3 steps 1-2). -/
def installUpdates (packageIds : List String) (simulate untrusted : Bool)
    (s : PkState) : PkState × List PkEvent :=
  if packageIds.isEmpty then (s, [])
  else
    ({s with m_activity := Activity.InstallingUpdates,
             m_installTransRunning := true,
             m_packages := packageIds,
             m_savedSimulate := simulate, m_savedUntrusted := untrusted},
     [PkEvent.startInstall packageIds simulate untrusted])

/-- The defaulted invocation of `installUpdates` as declared in the header
(line 193): `installUpdates(const QStringList & packageIds,
bool simulate = true, bool untrusted = false)` — calling it with only the
package-id list supplies `simulate = true` and `untrusted = false`. -/
def installUpdatesDefault (packageIds : List String) (s : PkState) : PkState × List PkEvent :=
  installUpdates packageIds true false s

/-- Modelled from the spec (the Install-terminal part of `onFinished`,
header line 232, is not in the repository sources): on terminal success,
Activity returns to Idle; for a real (non-simulated) install the
`updatesInstalled` signal is emitted and `checkUpdates(force=true,
manual=false)` is triggered; a simulated run triggers no post-success
recheck and mutates nothing else; on failure, surface the error and go Idle
(spec §4.3 steps 6-7 and the simulate-flag semantics). -/
def onInstallFinished (networkOnline success : Bool) (s : PkState) : PkState × List PkEvent :=
  if success then
    if s.m_savedSimulate then
      ({s with m_activity := Activity.Idle, m_installTransRunning := false}, [])
    else
      let s1 := {s with m_activity := Activity.Idle, m_installTransRunning := false}
      let r := checkUpdates networkOnline true false s1
      (r.1, PkEvent.updatesInstalled :: r.2)
  else
    ({s with m_activity := Activity.Idle, m_installTransRunning := false},
     [PkEvent.errorShown])

/-- Modelled from the spec (the body of `promptNextEulaAgreement`, header
line 255, is not in the repository sources): surface the head of the pending
EULA queue to the consumer via the `eulaRequired` prompt signal (spec
§4.4). -/
def promptNextEulaAgreement (s : PkState) : List PkEvent :=
  match s.m_requiredEulas with
  | [] => []
  | r :: _ =>
    [PkEvent.eulaPrompt r.eulaID r.eulaData.packageID r.eulaData.vendor
       r.eulaData.licenseAgreement]

/-- Modelled from the spec (the body of `onEulaRequired`, header line 242,
is not in the repository sources): enqueue the reported EULA in arrival
order; if no record was pending (hence none in prompt), immediately prompt
the head (spec §4.4 enqueue). -/
def onEulaRequired (eulaID packageID vendor licenseAgreement : String)
    (s : PkState) : PkState × List PkEvent :=
  let r : EulaRecord := ⟨eulaID, ⟨packageID, vendor, licenseAgreement⟩⟩
  let s' := {s with m_requiredEulas := s.m_requiredEulas ++ [r]}
  (s', if s.m_requiredEulas.isEmpty then promptNextEulaAgreement s' else [])

/-- Modelled from the spec (the body of `eulaAgreementResult`, header line
223, is not in the repository sources): strict-FIFO resolution — fail with
`NotFound` unless `eulaID` is the id of the queue head; if agreed, start an
EulaAccept transaction for that record (it is removed only on that
transaction's success); if declined, remove the record, drain the remaining
queue without accepting anything, and fail the original install with
`EulaDeclined` (spec §4.4 resolve). -/
def eulaAgreementResult (eulaID : String) (agreed : Bool)
    (s : PkState) : Except PkError (PkState × List PkEvent) :=
  match s.m_requiredEulas with
  | [] => Except.error PkError.NotFound
  | r :: _ =>
    if r.eulaID = eulaID then
      if agreed then
        Except.ok ({s with m_eulaTransRunning := true}, [PkEvent.startEulaAccept eulaID])
      else
        Except.ok
          ({s with m_requiredEulas := [],
                   m_activity := Activity.Idle, m_installTransRunning := false},
           [PkEvent.installFailed PkError.EulaDeclined])
    else Except.error PkError.NotFound

/-- Modelled from the spec (the EulaAccept-terminal handling, header lines
232/260, is not in the repository sources): on success remove the accepted
head record, then prompt the new head if any remain, otherwise re-issue the
retained original install operation; on failure treat as declined — drain
the queue and fail the install with `EulaDeclined` (spec §4.4). -/
def onEulaAcceptFinished (success : Bool) (s : PkState) : PkState × List PkEvent :=
  if success then
    let s1 := {s with m_eulaTransRunning := false,
                      m_requiredEulas := s.m_requiredEulas.tail}
    if s1.m_requiredEulas.isEmpty then
      installUpdates s.m_packages s.m_savedSimulate s.m_savedUntrusted s1
    else (s1, promptNextEulaAgreement s1)
  else
    ({s with m_eulaTransRunning := false, m_requiredEulas := [],
             m_activity := Activity.Idle, m_installTransRunning := false},
     [PkEvent.installFailed PkError.EulaDeclined])

/-- Modelled from the spec (the bodies of the static helpers `packageName`/
`packageVersion`, header lines 203/208, are not in the repository sources):
split a character list on the `;` separators of the service's
`name;version;arch;source` id format. -/
def splitOnSemi : List Char → List (List Char)
  | [] => [[]]
  | c :: rest =>
    if c = ';' then [] :: splitOnSemi rest
    else
      match splitOnSemi rest with
      | [] => [[c]]
      | h :: t => (c :: h) :: t

/-- Modelled from the spec: `packageName(pkgId)` is the deterministic
string decomposition returning field 0 of the `;`-separated id (empty when
absent). -/
def packageName (pkgId : String) : String :=
  String.mk ((splitOnSemi pkgId.data).getD 0 [])

/-- Modelled from the spec: `packageVersion(pkgId)` is the deterministic
string decomposition returning field 1 of the `;`-separated id (empty when
absent). -/
def packageVersion (pkgId : String) : String :=
  String.mk ((splitOnSemi pkgId.data).getD 1 [])

/-- A freshly constructed orchestrator state (all member initializers of the
header: `m_activity = Idle`, `m_lastCheckState = NoCheckDone`,
`m_checkUpdatesWhenNetworkOnline = false`, empty containers). -/
def initState : PkState :=
  { m_activity := Activity.Idle
    m_lastCheckState := CheckState.NoCheckDone
    m_checkUpdatesWhenNetworkOnline := false
    m_updateList := []
    m_importantList := []
    m_securityList := []
    m_requiredEulas := []
    m_packages := []
    m_savedSimulate := true
    m_savedUntrusted := false
    m_cacheTransRunning := false
    m_updatesTransRunning := false
    m_installTransRunning := false
    m_eulaTransRunning := false
    m_isManualCheck := false }

/-! ### Helper lemmas -/

lemma splitOnSemi_ne_nil (l : List Char) : splitOnSemi l ≠ [] := by
  cases l with
  | nil => simp [splitOnSemi]
  | cons c rest =>
    unfold splitOnSemi
    split
    · simp
    · split <;> simp

lemma splitOnSemi_append (l r : List Char) (h : ';' ∉ l) :
    splitOnSemi (l ++ ';' :: r) = l :: splitOnSemi r := by
  induction l with
  | nil => simp [splitOnSemi]
  | cons c l ih =>
    have hc : ¬c = ';' := fun e => h (e ▸ List.mem_cons_self c l)
    have h' : ';' ∉ l := fun m => h (List.mem_cons_of_mem c m)
    have ih' : splitOnSemi (List.append l (';' :: r)) = l :: splitOnSemi r := ih h'
    simp only [List.cons_append, splitOnSemi, if_neg hc, ih']

lemma mem_keys_insertRecord (a k v : String) (m : List (String × String)) :
    a ∈ (insertRecord k v m).map Prod.fst ↔ a = k ∨ a ∈ m.map Prod.fst := by
  induction m with
  | nil => simp [insertRecord]
  | cons p rest ih =>
    obtain ⟨k', v'⟩ := p
    by_cases hk : k' = k
    · subst hk
      rw [show insertRecord k' v ((k', v') :: rest) = (k', v) :: rest from if_pos rfl]
      simp only [List.map_cons, List.mem_cons]
      tauto
    · rw [show insertRecord k v ((k', v') :: rest) = (k', v') :: insertRecord k v rest
           from if_neg hk]
      simp only [List.map_cons, List.mem_cons, ih]
      tauto

lemma installUpdates_requiredEulas (p : List String) (a b : Bool) (st : PkState) :
    (installUpdates p a b st).1.m_requiredEulas = st.m_requiredEulas := by
  unfold installUpdates
  split <;> rfl

lemma checkUpdates_online_flag (force manual : Bool) (s : PkState) :
    (checkUpdates true force manual s).1.m_checkUpdatesWhenNetworkOnline
      = s.m_checkUpdatesWhenNetworkOnline := by
  unfold checkUpdates getUpdates
  simp only [Bool.not_true]
  split
  · rfl
  · split
    · simp_all
    · split <;> rfl

/-- The update-catalog invariant of the spec (§3 UpdateCatalog): every id in
the important and security lists is a key of the catalog. -/
def catalogInv (s : PkState) : Prop :=
  (∀ pid ∈ s.m_importantList, pid ∈ catalogKeys s)
  ∧ (∀ pid ∈ s.m_securityList, pid ∈ catalogKeys s)

instance (s : PkState) : Decidable (catalogInv s) := by
  unfold catalogInv
  infer_instance

lemma catalogInv_onPackage (info : Info) (pid summary : String) (s : PkState)
    (h : catalogInv s) : catalogInv (onPackage info pid summary s) := by
  obtain ⟨h1, h2⟩ := h
  have himp : (onPackage info pid summary s).m_importantList
      = if info = Info.Important then s.m_importantList ++ [pid]
        else s.m_importantList := rfl
  have hsec : (onPackage info pid summary s).m_securityList
      = if info = Info.Security then s.m_securityList ++ [pid]
        else s.m_securityList := rfl
  have hkeys : ∀ a, a ∈ catalogKeys (onPackage info pid summary s)
      ↔ a = pid ∨ a ∈ catalogKeys s :=
    fun a => mem_keys_insertRecord a pid summary s.m_updateList
  constructor
  · intro q hq
    rw [himp] at hq
    rw [hkeys q]
    by_cases hi : info = Info.Important
    · rw [if_pos hi] at hq
      rcases List.mem_append.1 hq with hq | hq
      · exact Or.inr (h1 q hq)
      · exact Or.inl (List.mem_singleton.1 hq)
    · rw [if_neg hi] at hq
      exact Or.inr (h1 q hq)
  · intro q hq
    rw [hsec] at hq
    rw [hkeys q]
    by_cases hi : info = Info.Security
    · rw [if_pos hi] at hq
      rcases List.mem_append.1 hq with hq | hq
      · exact Or.inr (h2 q hq)
      · exact Or.inl (List.mem_singleton.1 hq)
    · rw [if_neg hi] at hq
      exact Or.inr (h2 q hq)

lemma catalogInv_applyPackages (evs : List (Info × String × String)) (s : PkState)
    (h : catalogInv s) : catalogInv (applyPackages evs s) := by
  induction evs generalizing s with
  | nil => exact h
  | cons e t ih => exact ih _ (catalogInv_onPackage e.1 e.2.1 e.2.2 s h)

/-! ### Claim theorems -/

/-- C5: calling `checkUpdates` while `isActive()` is true and `manual=false`
is a no-op — it starts no second Refresh or Discover transaction (no events)
and leaves all state unchanged. -/
theorem checkUpdates_active_coalesced (networkOnline force : Bool) (s : PkState)
    (h : isActive s = true) :
    checkUpdates networkOnline force false s = (s, []) := by
  simp [checkUpdates, h]

/-- Witness for C5 at a concrete active state. -/
theorem checkUpdates_active_coalesced_witness :
    checkUpdates true true false {initState with m_activity := Activity.CheckingUpdates}
      = ({initState with m_activity := Activity.CheckingUpdates}, []) :=
  checkUpdates_active_coalesced true true
    {initState with m_activity := Activity.CheckingUpdates} (by decide)

/-- C3: resolving the pending head EULA with `agreed=false` removes that
record, drains every remaining queued record without starting any EulaAccept
transaction, and fails the original install operation with `EulaDeclined`
(the produced effects are exactly one `installFailed EulaDeclined`). -/
theorem eulaDecline_drains_queue_fails_install (s : PkState)
    (r : EulaRecord) (rest : List EulaRecord)
    (h : s.m_requiredEulas = r :: rest) :
    eulaAgreementResult r.eulaID false s =
      Except.ok
        ({s with m_requiredEulas := [],
                 m_activity := Activity.Idle, m_installTransRunning := false},
         [PkEvent.installFailed PkError.EulaDeclined]) := by
  simp [eulaAgreementResult, h]

/-- Witness for C3: a queue of two pending EULAs is fully drained by
declining the head. -/
theorem eulaDecline_drains_queue_fails_install_witness :
    eulaAgreementResult "E1" false
        {initState with
           m_requiredEulas := [⟨"E1", ⟨"pkgA", "VendorX", "text"⟩⟩,
                               ⟨"E2", ⟨"pkgB", "VendorY", "text2"⟩⟩],
           m_activity := Activity.InstallingUpdates} =
      Except.ok
        ({initState with
            m_requiredEulas := [],
            m_activity := Activity.Idle, m_installTransRunning := false},
         [PkEvent.installFailed PkError.EulaDeclined]) := by
  have h := eulaDecline_drains_queue_fails_install
    {initState with
       m_requiredEulas := [⟨"E1", ⟨"pkgA", "VendorX", "text"⟩⟩,
                           ⟨"E2", ⟨"pkgB", "VendorY", "text2"⟩⟩],
       m_activity := Activity.InstallingUpdates}
    ⟨"E1", ⟨"pkgA", "VendorX", "text"⟩⟩ [⟨"E2", ⟨"pkgB", "VendorY", "text2"⟩⟩] rfl
  exact h

/-- C10: the defaulted invocation of `installUpdates` (only the package-id
list supplied) uses `simulate = true` and `untrusted = false` as declared in
the header, so it starts the install transaction as a dry run that does not
pre-authorize unverified packages, and its successful completion performs no
post-success recheck (no events, no state change beyond returning to
Idle) — a real install requires passing `simulate = false` explicitly. -/
theorem installUpdates_default_dry_run (pkgs : List String) (s : PkState)
    (net : Bool) (h : pkgs ≠ []) :
    installUpdatesDefault pkgs s = installUpdates pkgs true false s
    ∧ (installUpdatesDefault pkgs s).2 = [PkEvent.startInstall pkgs true false]
    ∧ onInstallFinished net true (installUpdatesDefault pkgs s).1 =
        ({(installUpdatesDefault pkgs s).1 with
            m_activity := Activity.Idle, m_installTransRunning := false}, []) := by
  obtain ⟨a, t, rfl⟩ : ∃ a t, pkgs = a :: t := by
    cases pkgs with
    | nil => exact absurd rfl h
    | cons a t => exact ⟨a, t, rfl⟩
  refine ⟨rfl, ?_, ?_⟩
  · rfl
  · rfl

/-- Witness for C10 at a concrete package list and state. -/
theorem installUpdates_default_dry_run_witness :
    installUpdatesDefault ["pkgA"] initState = installUpdates ["pkgA"] true false initState
    ∧ (installUpdatesDefault ["pkgA"] initState).2
        = [PkEvent.startInstall ["pkgA"] true false]
    ∧ onInstallFinished true true (installUpdatesDefault ["pkgA"] initState).1 =
        ({(installUpdatesDefault ["pkgA"] initState).1 with
            m_activity := Activity.Idle, m_installTransRunning := false}, []) :=
  installUpdates_default_dry_run ["pkgA"] initState true (by decide)

/-- C9: for every package id of the form `name;version;arch;source` (the
name and version fields themselves containing no `;`), `packageName`
returns exactly the name field and `packageVersion` returns exactly the
version field, regardless of the content of the other fields; both are pure
functions of the id alone, hence deterministic and independent of call
order or any transaction state. -/
theorem package_id_roundtrip (pname version arch source : String)
    (h1 : ';' ∉ pname.data) (h2 : ';' ∉ version.data) :
    packageName (pname ++ ";" ++ version ++ ";" ++ arch ++ ";" ++ source) = pname
    ∧ packageVersion (pname ++ ";" ++ version ++ ";" ++ arch ++ ";" ++ source) = version := by
  have hsemi : (";" : String).data = [';'] := rfl
  have hdata : (pname ++ ";" ++ version ++ ";" ++ arch ++ ";" ++ source).data
      = pname.data ++ ';' :: (version.data ++ ';' :: (arch.data ++ ';' :: source.data)) := by
    simp [String.data_append, hsemi]
  constructor
  · rw [packageName, hdata, splitOnSemi_append _ _ h1]
    cases pname with
    | mk l => rfl
  · rw [packageVersion, hdata, splitOnSemi_append _ _ h1,
        splitOnSemi_append _ _ h2]
    cases version with
    | mk l => rfl

/-- Witness for C9 at a concrete id. -/
theorem package_id_roundtrip_witness :
    packageName ("kf5-kirigami" ++ ";" ++ "5.44" ++ ";" ++ "x86_64" ++ ";" ++ "updates")
      = "kf5-kirigami"
    ∧ packageVersion ("kf5-kirigami" ++ ";" ++ "5.44" ++ ";" ++ "x86_64" ++ ";" ++ "updates")
      = "5.44" :=
  package_id_roundtrip "kf5-kirigami" "5.44" "x86_64" "updates" (by decide) (by decide)

/-- C4: when `checkUpdates` is invoked (past the coalescing guard) with the
network offline, it starts no transaction (no events) and only sets
`m_checkUpdatesWhenNetworkOnline`; when the network later transitions to
online, the deferred check is auto-invoked exactly once as
`checkUpdates(force=false, manual=false)` on the flag-cleared state, the
flag is false afterwards, and a further online transition invokes nothing
more. -/
theorem checkUpdates_network_deferral (s : PkState) (force manual : Bool) :
    ((s.m_activity = Activity.Idle ∨ manual = true) →
      checkUpdates false force manual s =
        ({s with m_checkUpdatesWhenNetworkOnline := true}, []))
    ∧ (s.m_checkUpdatesWhenNetworkOnline = true →
        onNetworkStateChanged true s =
          checkUpdates true false false {s with m_checkUpdatesWhenNetworkOnline := false})
    ∧ (onNetworkStateChanged true s).1.m_checkUpdatesWhenNetworkOnline = false
    ∧ onNetworkStateChanged true ((onNetworkStateChanged true s).1) =
        ((onNetworkStateChanged true s).1, []) := by
  have flagLem : ∀ s' : PkState,
      (onNetworkStateChanged true s').1.m_checkUpdatesWhenNetworkOnline = false := by
    intro s'
    by_cases hf : s'.m_checkUpdatesWhenNetworkOnline = true
    · have hd : onNetworkStateChanged true s' = doDelayedCheckUpdates s' := by
        simp [onNetworkStateChanged, hf]
      rw [hd, doDelayedCheckUpdates, checkUpdates_online_flag]
    · have hf' : s'.m_checkUpdatesWhenNetworkOnline = false := by
        simpa using hf
      simp [onNetworkStateChanged, hf']
  refine ⟨?_, ?_, flagLem s, ?_⟩
  · intro h
    rcases h with h | h
    · have ha : isActive s = false := by simp [isActive, h]
      simp [checkUpdates, ha]
    · subst h
      simp [checkUpdates]
  · intro hf
    simp [onNetworkStateChanged, hf, doDelayedCheckUpdates]
  · have hx := flagLem s
    revert hx
    generalize (onNetworkStateChanged true s).1 = X
    intro hx
    simp [onNetworkStateChanged, hx]

/-- Witness for C4 at concrete states: an Idle offline call defers, and the
flagged state is resumed by the online transition. -/
theorem checkUpdates_network_deferral_witness :
    checkUpdates false true false initState =
      ({initState with m_checkUpdatesWhenNetworkOnline := true}, [])
    ∧ onNetworkStateChanged true {initState with m_checkUpdatesWhenNetworkOnline := true} =
        checkUpdates true false false
          {{initState with m_checkUpdatesWhenNetworkOnline := true} with
             m_checkUpdatesWhenNetworkOnline := false}
    ∧ (onNetworkStateChanged true
        {initState with m_checkUpdatesWhenNetworkOnline := true}).1.m_checkUpdatesWhenNetworkOnline
        = false :=
  ⟨(checkUpdates_network_deferral initState true false).1 (Or.inl rfl),
   (checkUpdates_network_deferral
      {initState with m_checkUpdatesWhenNetworkOnline := true} false false).2.1 rfl,
   (checkUpdates_network_deferral
      {initState with m_checkUpdatesWhenNetworkOnline := true} false false).2.2.1⟩

/-- C6: after a forced refresh (`checkUpdates` with `force=true`) whose
Refresh transaction terminates with an error, the Discover transaction is
never started (the forced call emits only `startRefresh` and the failure
handler emits no `startDiscover`), `m_lastCheckState` is `CheckFailed`, and
`isActive()` is false afterwards. -/
theorem forced_refresh_failure_stops (s : PkState) (manual : Bool)
    (h : s.m_activity = Activity.Idle ∨ manual = true) :
    (checkUpdates true true manual s).2 = [PkEvent.startRefresh]
    ∧ PkEvent.startDiscover ∉ (onRefreshFinished false (checkUpdates true true manual s).1).2
    ∧ (onRefreshFinished false (checkUpdates true true manual s).1).1.m_lastCheckState
        = CheckState.CheckFailed
    ∧ isActive (onRefreshFinished false (checkUpdates true true manual s).1).1 = false := by
  have hcu : checkUpdates true true manual s =
      ({s with m_activity := Activity.CheckingUpdates,
               m_cacheTransRunning := true, m_isManualCheck := manual},
       [PkEvent.startRefresh]) := by
    rcases h with h | h
    · have ha : isActive s = false := by simp [isActive, h]
      simp [checkUpdates, ha]
    · subst h
      simp [checkUpdates]
  rw [hcu]
  refine ⟨rfl, ?_, rfl, rfl⟩
  show PkEvent.startDiscover ∉ [PkEvent.errorShown, PkEvent.done]
  decide

/-- Witness for C6 at the fresh Idle state. -/
theorem forced_refresh_failure_stops_witness :
    (checkUpdates true true false initState).2 = [PkEvent.startRefresh]
    ∧ PkEvent.startDiscover ∉ (onRefreshFinished false (checkUpdates true true false initState).1).2
    ∧ (onRefreshFinished false (checkUpdates true true false initState).1).1.m_lastCheckState
        = CheckState.CheckFailed
    ∧ isActive (onRefreshFinished false (checkUpdates true true false initState).1).1 = false :=
  forced_refresh_failure_stops initState false (Or.inl rfl)

/-- C7: the post-success recheck is gated by the simulate flag — when a
non-simulated install transaction terminates successfully, Activity returns
to Idle, the `updatesInstalled` event is emitted and
`checkUpdates(force=true, manual=false)` is triggered on that Idle state;
for an install started with `simulate=true`, successful termination emits no
events at all (no recheck, nothing installed) and changes nothing beyond
Activity returning to Idle and the install slot clearing. -/
theorem install_success_recheck_gated_by_simulate (s : PkState)
    (net untrusted : Bool) (pkgs : List String) :
    (s.m_savedSimulate = false →
      onInstallFinished net true s =
        ((checkUpdates net true false
            {s with m_activity := Activity.Idle, m_installTransRunning := false}).1,
         PkEvent.updatesInstalled ::
           (checkUpdates net true false
              {s with m_activity := Activity.Idle, m_installTransRunning := false}).2))
    ∧ (pkgs ≠ [] →
        onInstallFinished net true (installUpdates pkgs true untrusted s).1 =
          ({(installUpdates pkgs true untrusted s).1 with
              m_activity := Activity.Idle, m_installTransRunning := false}, [])) := by
  constructor
  · intro hsim
    simp [onInstallFinished, hsim]
  · intro hp
    obtain ⟨a, t, rfl⟩ : ∃ a t, pkgs = a :: t := by
      cases pkgs with
      | nil => exact absurd rfl hp
      | cons a t => exact ⟨a, t, rfl⟩
    rfl

/-- Witness for C7 at concrete states: a real install's success triggers the
recheck, a simulated install's success does not. -/
theorem install_success_recheck_gated_by_simulate_witness :
    onInstallFinished true true {initState with m_savedSimulate := false} =
      ((checkUpdates true true false
          {{initState with m_savedSimulate := false} with
             m_activity := Activity.Idle, m_installTransRunning := false}).1,
       PkEvent.updatesInstalled ::
         (checkUpdates true true false
            {{initState with m_savedSimulate := false} with
               m_activity := Activity.Idle, m_installTransRunning := false}).2)
    ∧ onInstallFinished true true (installUpdates ["pkgA"] true false initState).1 =
        ({(installUpdates ["pkgA"] true false initState).1 with
            m_activity := Activity.Idle, m_installTransRunning := false}, []) :=
  ⟨(install_success_recheck_gated_by_simulate
      {initState with m_savedSimulate := false} true false ["pkgA"]).1 rfl,
   (install_success_recheck_gated_by_simulate initState true false ["pkgA"]).2
     (by decide)⟩

lemma onEulaAcceptFinished_true_requiredEulas (s : PkState) :
    (onEulaAcceptFinished true s).1.m_requiredEulas = s.m_requiredEulas.tail := by
  cases hq : s.m_requiredEulas with
  | nil => simp [onEulaAcceptFinished, hq, installUpdates_requiredEulas]
  | cons r q =>
    cases q with
    | nil => simp [onEulaAcceptFinished, hq, installUpdates_requiredEulas]
    | cons r2 q2 => simp [onEulaAcceptFinished, hq]

/-- C2: EULA resolution is strictly FIFO — `eulaAgreementResult` fails with
`NotFound` unless the given id is the id of the head (oldest-enqueued)
record, and the pending records are never reordered relative to arrival
order: any successful resolution leaves the queue a suffix of what it was,
enqueueing appends at the back, and the accept-transaction terminal handler
also only ever removes from the front. -/
theorem eulaResolution_strict_fifo (s : PkState) (eulaID : String) (agreed : Bool) :
    (s.m_requiredEulas.head?.map EulaRecord.eulaID ≠ some eulaID →
      eulaAgreementResult eulaID agreed s = Except.error PkError.NotFound)
    ∧ (∀ s' evs, eulaAgreementResult eulaID agreed s = Except.ok (s', evs) →
        s'.m_requiredEulas <:+ s.m_requiredEulas)
    ∧ (∀ e p v l,
        ((onEulaRequired e p v l s).1).m_requiredEulas
          = s.m_requiredEulas ++ [⟨e, ⟨p, v, l⟩⟩])
    ∧ (∀ success, ((onEulaAcceptFinished success s).1).m_requiredEulas
        <:+ s.m_requiredEulas) := by
  refine ⟨?_, ?_, ?_, ?_⟩
  · intro hne
    cases hq : s.m_requiredEulas with
    | nil => simp [eulaAgreementResult, hq]
    | cons r q =>
      rw [hq] at hne
      have hr : ¬r.eulaID = eulaID := by
        intro e
        exact hne (by simp [e])
      simp [eulaAgreementResult, hq, hr]
  · intro s' evs hok
    cases hq : s.m_requiredEulas with
    | nil => simp [eulaAgreementResult, hq] at hok
    | cons r q =>
      by_cases hr : r.eulaID = eulaID
      · by_cases ha : agreed = true
        · simp [eulaAgreementResult, hq, hr, ha] at hok
          obtain ⟨h1, h2⟩ := hok
          rw [← h1]
        · have ha' : agreed = false := by simpa using ha
          simp [eulaAgreementResult, hq, hr, ha'] at hok
          obtain ⟨h1, h2⟩ := hok
          rw [← h1]
          exact List.nil_suffix
      · simp [eulaAgreementResult, hq, hr] at hok
  · intro e p v l
    rfl
  · intro success
    cases success with
    | false => exact List.nil_suffix
    | true =>
      rw [onEulaAcceptFinished_true_requiredEulas]
      exact List.tail_suffix _

/-- Witness for C2: resolving a non-head id fails with `NotFound`; the
successful head resolution keeps the queue a suffix; enqueueing appends. -/
theorem eulaResolution_strict_fifo_witness :
    eulaAgreementResult "E2" true
        {initState with
           m_requiredEulas := [⟨"E1", ⟨"pkgA", "VendorX", "text"⟩⟩,
                               ⟨"E2", ⟨"pkgB", "VendorY", "text2"⟩⟩]}
      = Except.error PkError.NotFound
    ∧ ((onEulaRequired "E9" "pkgZ" "VendorZ" "tz" initState).1).m_requiredEulas
        = initState.m_requiredEulas ++ [⟨"E9", ⟨"pkgZ", "VendorZ", "tz"⟩⟩] :=
  ⟨(eulaResolution_strict_fifo
      {initState with
         m_requiredEulas := [⟨"E1", ⟨"pkgA", "VendorX", "text"⟩⟩,
                             ⟨"E2", ⟨"pkgB", "VendorY", "text2"⟩⟩]}
      "E2" true).1 (by decide),
   (eulaResolution_strict_fifo initState "E9" true).2.2.1 "E9" "pkgZ" "VendorZ" "tz"⟩

/-- C1: when an install is interrupted by a required EULA and the caller
resolves it with `eulaAgreementResult(eulaId, agreed=true)`, an EulaAccept
transaction is started for that record, and on that transaction's success
the record is removed and the original install operation is re-issued with
exactly the packageIds, simulate and untrusted values the caller originally
supplied to `installUpdates`. -/
theorem eulaAccept_reissues_original_install (s0 : PkState)
    (pkgs : List String) (simulate untrusted : Bool)
    (eulaID packageID vendor licenseText : String)
    (h0 : s0.m_requiredEulas = []) (hp : pkgs ≠ []) :
    ∃ s1 s2 s3 s4 : PkState,
      installUpdates pkgs simulate untrusted s0 =
        (s1, [PkEvent.startInstall pkgs simulate untrusted])
      ∧ onEulaRequired eulaID packageID vendor licenseText s1 =
          (s2, [PkEvent.eulaPrompt eulaID packageID vendor licenseText])
      ∧ eulaAgreementResult eulaID true s2 =
          Except.ok (s3, [PkEvent.startEulaAccept eulaID])
      ∧ onEulaAcceptFinished true s3 =
          (s4, [PkEvent.startInstall pkgs simulate untrusted])
      ∧ s4.m_requiredEulas = [] := by
  obtain ⟨a, t, rfl⟩ : ∃ a t, pkgs = a :: t := by
    cases pkgs with
    | nil => exact absurd rfl hp
    | cons a t => exact ⟨a, t, rfl⟩
  obtain ⟨act, lcs, flag, ul, il, sl, re, mp, sim0, unt0, ct, ut, it, et, mc⟩ := s0
  have h0' : re = [] := h0
  subst h0'
  refine ⟨⟨Activity.InstallingUpdates, lcs, flag, ul, il, sl, [], a :: t,
            simulate, untrusted, ct, ut, true, et, mc⟩,
          ⟨Activity.InstallingUpdates, lcs, flag, ul, il, sl,
            [⟨eulaID, ⟨packageID, vendor, licenseText⟩⟩], a :: t,
            simulate, untrusted, ct, ut, true, et, mc⟩,
          ⟨Activity.InstallingUpdates, lcs, flag, ul, il, sl,
            [⟨eulaID, ⟨packageID, vendor, licenseText⟩⟩], a :: t,
            simulate, untrusted, ct, ut, true, true, mc⟩,
          ⟨Activity.InstallingUpdates, lcs, flag, ul, il, sl, [], a :: t,
            simulate, untrusted, ct, ut, true, false, mc⟩,
          rfl, rfl, ?_, rfl, rfl⟩
  simp [eulaAgreementResult]

/-- Witness for C1: the spec scenario — `install({pkgA})` receives
`eulaRequired(E1, pkgA, VendorX, "text")`, the consumer agrees, an
EulaAccept transaction runs for E1, and the original install is retried with
`{pkgA}` and the original flags. -/
theorem eulaAccept_reissues_original_install_witness :
    ∃ s1 s2 s3 s4 : PkState,
      installUpdates ["pkgA"] false false initState =
        (s1, [PkEvent.startInstall ["pkgA"] false false])
      ∧ onEulaRequired "E1" "pkgA" "VendorX" "text" s1 =
          (s2, [PkEvent.eulaPrompt "E1" "pkgA" "VendorX" "text"])
      ∧ eulaAgreementResult "E1" true s2 =
          Except.ok (s3, [PkEvent.startEulaAccept "E1"])
      ∧ onEulaAcceptFinished true s3 =
          (s4, [PkEvent.startInstall ["pkgA"] false false])
      ∧ s4.m_requiredEulas = [] :=
  eulaAccept_reissues_original_install initState ["pkgA"] false false
    "E1" "pkgA" "VendorX" "text" rfl (by decide)

/-- C8: for every sequence of discovery events applied during a discovery
cycle, after the Discover transaction terminates successfully the catalog
satisfies `importantIds ∪ securityIds ⊆ keys(catalog)`, `count()` equals the
number of catalog entries, and `isSystemUpToDate()` holds if and only if
`count() == 0`. -/
theorem discovery_catalog_invariant (s : PkState)
    (evs : List (Info × String × String)) :
    catalogInv ((onUpdatesFinished true (applyPackages evs (getUpdates s).1)).1)
    ∧ count ((onUpdatesFinished true (applyPackages evs (getUpdates s).1)).1)
        = ((onUpdatesFinished true (applyPackages evs (getUpdates s).1)).1).m_updateList.length
    ∧ (isSystemUpToDate ((onUpdatesFinished true (applyPackages evs (getUpdates s).1)).1) = true
        ↔ count ((onUpdatesFinished true (applyPackages evs (getUpdates s).1)).1) = 0) := by
  refine ⟨?_, rfl, ?_⟩
  · show catalogInv (applyPackages evs (getUpdates s).1)
    refine catalogInv_applyPackages evs _ ⟨?_, ?_⟩
    · intro pid hpid
      exact absurd hpid (List.not_mem_nil pid)
    · intro pid hpid
      exact absurd hpid (List.not_mem_nil pid)
  · simp [isSystemUpToDate]

/-- Witness for C8 at the spec's discovery scenario (a security and an
enhancement event). -/
theorem discovery_catalog_invariant_witness :
    catalogInv ((onUpdatesFinished true (applyPackages
        [(Info.Security, "pkgA;1;x;r", "fix"), (Info.Enhancement, "pkgB;2;y;r", "feat")]
        (getUpdates initState).1)).1)
    ∧ (isSystemUpToDate ((onUpdatesFinished true (applyPackages
        [(Info.Security, "pkgA;1;x;r", "fix"), (Info.Enhancement, "pkgB;2;y;r", "feat")]
        (getUpdates initState).1)).1) = true
        ↔ count ((onUpdatesFinished true (applyPackages
          [(Info.Security, "pkgA;1;x;r", "fix"), (Info.Enhancement, "pkgB;2;y;r", "feat")]
          (getUpdates initState).1)).1) = 0) :=
  ⟨(discovery_catalog_invariant initState
      [(Info.Security, "pkgA;1;x;r", "fix"), (Info.Enhancement, "pkgB;2;y;r", "feat")]).1,
   (discovery_catalog_invariant initState
      [(Info.Security, "pkgA;1;x;r", "fix"), (Info.Enhancement, "pkgB;2;y;r", "feat")]).2.2⟩
